import Mathlib

/-!
# Verification of the Google Maps review crawl engine

Shallow embedding of the crawl engine of this repository:

* `src/extract.py` / `src/dual_async_scraper_v3.py` —
  `DualAsyncGoogleMapsReviewScraper` (regex-section based decoder, dual
  direction crawl with shared dedup state and duplicate-driven stop),
* `src/main_requests/optimized_dual_scraper.py` —
  `OptimizedGoogleMapsReviewScraper` (JSON index-based decoder,
  producer/consumer pipeline).

Python JSON values (the output of `json.loads` / `orjson.loads` on the
provider's array-shaped wire format) are embedded as the inductive `JVal`.
The wire format of this provider is built from arrays, strings, numbers,
booleans and nulls; JSON objects do not occur in the decoded review
envelopes, so `JVal` has no object constructor.  Python `str` values are
embedded as `String`, Python `int` as `Int`.  `try/except` blocks that
return `None` are embedded by `Option`-valued functions (`none` = the
exception was raised and swallowed, or the function returned `None`).
-/

/-- Embedding of a Python value decoded from the provider's JSON wire
format (arrays, strings, integers, booleans, null). -/
inductive JVal where
  | null
  | bool (b : Bool)
  | num (n : Int)
  | str (s : String)
  | arr (elems : List JVal)
deriving Repr, BEq

/-- `isinstance(v, list)`. -/
def JVal.isArr : JVal → Bool
  | .arr _ => true
  | _ => false

/-- `isinstance(v, str)`. -/
def JVal.isStr : JVal → Bool
  | .str _ => true
  | _ => false

/-- Python `v is None` (JSON `null` decodes to Python `None`). -/
def JVal.isNull : JVal → Bool
  | .null => true
  | _ => false

/-- Python truthiness `bool(v)` of a decoded JSON value. -/
def pyTruthy : JVal → Bool
  | .null => false
  | .bool b => b
  | .num n => n != 0
  | .str s => s.length != 0
  | .arr xs => !xs.isEmpty

/-- Python `a or b` (returns `a` when truthy, else `b`). -/
def pyOr (a b : JVal) : JVal := if pyTruthy a then a else b

/-- Python subscription `v[i]` with a non-negative index: succeeds on a
list (when in range) and on a string (yielding a one-character string);
any other receiver raises (`none`). -/
def pyIndex : JVal → Nat → Option JVal
  | .arr xs, i => xs.get? i
  | .str s, i => (s.data.get? i).map (fun c => .str (String.mk [c]))
  | _, _ => none

/-- A Python value viewed as a sequence (`len(v)` / iteration): a list
yields its elements, a string yields its characters as one-character
strings, anything else raises `TypeError` (`none`). -/
def pySeq : JVal → Option (List JVal)
  | .arr xs => some xs
  | .str s => some (s.data.map (fun c => .str (String.mk [c])))
  | _ => none

/-- `safe_get_nested(data, *indices)` of
`src/main_requests/optimized_dual_scraper.py` (lines 133-141): walk the
indices, catching `IndexError`/`KeyError`/`TypeError` and returning
Python `None` — which is the same value as JSON `null`, so the embedding
returns `JVal.null` on failure. -/
def safeGetNested (data : JVal) : List Nat → JVal
  | [] => data
  | i :: rest =>
    match pyIndex data i with
    | some v => safeGetNested v rest
    | none => .null

/-- Python `int(v)`: identity on ints, `True`/`False` become `1`/`0`, a
string of an optionally signed decimal numeral is parsed, everything
else raises (`none`).  (Surrounding whitespace in numeric strings is not
modelled; no claim depends on it.) -/
def pyInt : JVal → Option Int
  | .num n => some n
  | .bool b => some (if b then 1 else 0)
  | .str s =>
    match s.data with
    | [] => none
    | c :: rest =>
      let digits := fun (l : List Char) =>
        if l.isEmpty then (none : Option Nat)
        else if l.all Char.isDigit then
          some (l.foldl (fun acc d => acc * 10 + d.toNat - 48) 0)
        else none
      if c = '-' then (digits rest).map (fun n => -(n : Int))
      else if c = '+' then (digits rest).map (fun n => (n : Int))
      else (digits (c :: rest)).map (fun n => (n : Int))
  | _ => none


/-!
CPython aborts recursion beyond a configurable limit (about 1000 frames)
with a `RecursionError`.  The recursive tree walkers below therefore
carry an explicit recursion budget `fuel`; an exhausted budget is the
embedded `RecursionError`, which — like every other exception inside
`fast_parse_review` — is swallowed by the decoder's outer `try/except`.
On every input whose nesting is shallower than the budget the walkers
agree with the unbounded Python recursion, and all theorems below hold
for every budget.  The explicit budget keeps every definition
structurally recursive, hence kernel-computable.
-/

/-- Python `str(v)` on a decoded JSON value; `none` embeds a
`RecursionError` on a value nested more deeply than the budget.
Strings inside a printed list are `repr`-quoted (escaping subtleties
are not modelled — no claim depends on the printed form of non-string
values). -/
def pyStr : Nat → JVal → Option String
  | _, .null => some "None"
  | _, .bool b => some (if b then "True" else "False")
  | _, .num n => some (toString n)
  | _, .str s => some s
  | 0, .arr _ => none
  | fuel+1, .arr xs =>
    (goList fuel xs).map (fun parts => "[" ++ String.intercalate ", " parts ++ "]")
where goList : Nat → List JVal → Option (List String)
  | _, [] => some []
  | fuel, v :: rest => do
    let head ← match v with
      | .str s => some (String.mk ('\'' :: (s.data ++ ['\''])))
      | other => pyStr fuel other
    let tail ← goList fuel rest
    some (head :: tail)

/-- Python `needle in hay` on strings: substring containment. -/
def strHasSub (hay needle : String) : Bool :=
  go hay.data
where go : List Char → Bool
  | [] => needle.data.isPrefixOf []
  | c :: rest => needle.data.isPrefixOf (c :: rest) || go rest

/-- Python `s.lower()` (ASCII case folding suffices for the keyword
lists used by the code). -/
def strLower (s : String) : String := String.mk (s.data.map Char.toLower)

/-- Python `s.startswith(p)`. -/
def strStarts (s p : String) : Bool := p.data.isPrefixOf s.data

/-!
## Review record decoder of `src/main_requests/optimized_dual_scraper.py`
-/

/-- The `Review` dataclass of `optimized_dual_scraper.py` (lines 36-56).
`publishedAtDate` is produced by `datetime_from_microseconds`: the
embedding keeps the microsecond epoch (`some micros`) and uses `none`
for the code's explicit decode-time `datetime.now()` fallback (wall
clock and ISO formatting are outside the embedding; no claim depends on
the printed timestamp).  `extractionConfidence` is the constant `1.0`
of the fast parser, kept as the constant `1`. -/
structure Review where
  reviewId : String
  reviewerId : String
  reviewerName : String
  stars : Int
  text : String
  language : String
  publishedAtDate : Option Int
  likesCount : Int
  ownerResponse : Option String
  images : List String
  reviewerPhotoUrl : String
  reviewerNumberOfReviews : Int
  isLocalGuide : Bool
  sortDirection : String
  extractionConfidence : Nat
  timeAgo : String
  hasImages : Bool
  hasOwnerResponse : Bool
deriving Repr, DecidableEq

/-- The shape test of `_find_user_meta` (lines 148-151): a list of
length ≥ 4 whose first two elements are strings, the second starting
with `"https://lh3"`. -/
def isUserMetaShape : JVal → Bool
  | .arr (JVal.str _ :: JVal.str b :: _ :: _ :: _) => strStarts b "https://lh3"
  | _ => false

/-- `_find_user_meta(block)` (lines 143-157): walk the list tree for the
first sub-list `[name, profile_img, [profile_url], user_id, …]`
satisfying `isUserMetaShape`.  For each element the shape test runs
first, then the recursive descent into list elements; a non-list block
yields `None`.  The outer `none` embeds a `RecursionError`; `some none`
is the function's own `None` (nothing found). -/
def findUserMeta : Nat → JVal → Option (Option (List JVal))
  | 0, _ => none
  | fuel+1, .arr items => goList fuel items
  | _+1, _ => some none
where goList : Nat → List JVal → Option (Option (List JVal))
  | _, [] => some none
  | fuel, item :: rest =>
    if isUserMetaShape item then
      match item with
      | .arr xs => some (some xs)
      | _ => some none
    else
      match item with
      | .arr _ => do
        match ← findUserMeta fuel item with
        | some found => some (some found)
        | none => goList fuel rest
      | _ => goList fuel rest

/-- `_find_likes(block)` (lines 159-169): return `int(item[1])` of the
first two-element list `[1, n]` encountered; descending into the first
nested list always returns its (never-`None`) result, so later siblings
of a nested list are never examined — embedded faithfully.  Python
`item[0] == 1` also accepts `True` (`True == 1`).  `none` embeds an
exception (`ValueError` from `int(item[1])`, or `RecursionError`). -/
def findLikes : Nat → JVal → Option Int
  | 0, _ => none
  | fuel+1, .arr items => goList fuel items
  | _+1, _ => some 0
where goList : Nat → List JVal → Option Int
  | _, [] => some 0
  | fuel, item :: rest =>
    match item with
    | .arr xs =>
      if xs.length = 2 && (xs.getD 0 .null == JVal.num 1 || xs.getD 0 .null == JVal.bool true) then
        pyInt (xs.getD 1 .null)
      else findLikes fuel (.arr xs)
    | _ => goList fuel rest

/-- `_long_strings(block)` (lines 171-177): depth-first collection of
string leaves longer than 40 characters inside a list tree (a
non-list, non-string top-level value yields nothing).  `none` embeds a
`RecursionError`. -/
def longStrings : Nat → JVal → Option (List String)
  | 0, _ => none
  | fuel+1, .arr items => goList fuel items
  | _+1, .str s => some (if s.length > 40 then [s] else [])
  | _+1, _ => some []
where goList : Nat → List JVal → Option (List String)
  | _, [] => some []
  | fuel, item :: rest => do
    let here ← longStrings fuel item
    let there ← goList fuel rest
    some (here ++ there)

/-- The text-bucket condition of `fast_parse_review` (lines 193-197):
a bucket qualifies when it is a non-empty list whose first element is a
non-empty list whose first element is a string longer than 3 characters
not starting with `"http"`; returns the accepted text. -/
def bucketMatches : JVal → Option String
  | .arr (JVal.arr (JVal.str s :: _) :: _) =>
    if s.length > 3 && !(strStarts s "http") then some s else none
  | _ => none

/-- The backwards scan of `fast_parse_review` (lines 191-204) over the
content-bucket sequence `meta[2]`: the last index whose bucket
qualifies, together with the accepted text. -/
def findTextIdx (seq : List JVal) : Option (Nat × String) :=
  (seq.enum.reverse).findSome? (fun p => (bucketMatches p.2).map (fun s => (p.1, s)))

/-- Language resolution of `fast_parse_review` (lines 200-203): when the
text bucket is at `idx > 0` and `meta[2][idx-1]` is a list whose first
element (via `safe_get_nested`) is a two-character string, that string;
otherwise the `"en"` default. -/
def resolveLanguage (meta : JVal) (seq : List JVal) (idx : Nat) : String :=
  if idx > 0 && (seq.getD (idx - 1) .null).isArr then
    match safeGetNested meta [2, idx - 1, 0] with
    | .str l => if l.length = 2 then l else "en"
    | _ => "en"
  else "en"

/-- Owner-response extraction of `fast_parse_review` (lines 221-229):
the bucket after the text bucket, when shaped like a text bucket and
containing one of the gratitude/apology keywords (case-insensitively). -/
def findOwnerResponse (seq : List JVal) (textIdx : Option Nat) : Option String :=
  match textIdx with
  | none => none
  | some idx =>
    if idx + 1 < seq.length then
      match seq.getD (idx + 1) .null with
      | .arr (JVal.arr (JVal.str resp :: _) :: _) =>
        if ["thank", "sorry", "appreciate", "glad"].any
            (fun w => strHasSub (strLower resp) w) then some resp
        else none
      | _ => none
    else none

/-- The two image-host path prefixes accepted by `fast_parse_review`
(lines 217-219). -/
def imageHostMarks : List String :=
  ["https://lh3.googleusercontent.com/geougc-cs",
   "https://lh3.googleusercontent.com/places/"]

/-- `datetime_from_microseconds(micros)` (lines 123-131): a falsy or
non-convertible value falls back to decode-time `now()` (embedded as
`none`); otherwise the microsecond epoch is kept. -/
def microsToDate (v : JVal) : Option Int :=
  if pyTruthy v then pyInt v else none

/-- `fast_parse_review(review_data, direction)` (lines 179-259): the
index-based review record decoder.  `none` embeds both the explicit
`return None` rejections and any exception reaching the outer
`try/except` (which also returns `None`).  `fuel` is the recursion
budget of the tree walkers (see above). -/
def fastParseReview (fuel : Nat) (reviewData : JVal) (direction : String) : Option Review :=
  match pyIndex reviewData 0 with
  | none => none
  | some meta =>
    -- rating: `stars = safe_get_nested(meta, 2, 0, 0); if stars is None: return None`
    let stars := safeGetNested meta [2, 0, 0]
    if stars.isNull then none
    else
      -- text & language: `for idx in range(len(meta[2]) - 1, -1, -1)`
      match pyIndex meta 2 with
      | none => none
      | some m2 =>
        match pySeq m2 with
        | none => none
        | some seq =>
          let tl := findTextIdx seq
          let text := match tl with | some (_, s) => s | none => ""
          let language := match tl with
            | some (i, _) => resolveLanguage meta seq i
            | none => "en"
          -- user block: `if not user_block: return None`
          match findUserMeta fuel meta with
          | none => none
          | some none => none
          | some (some ub) =>
            match ub with
            | JVal.str userName :: JVal.str profileImg :: _ :: userId :: _ =>
              let totalReviews := if ub.length > 5 then ub.getD 5 .null else .num 0
              let isLocalGuide := pyTruthy (if ub.length > 12 then ub.getD 12 .null else .num 0)
              match findLikes fuel meta with
              | none => none
              | some likes =>
                match longStrings fuel meta with
                | none => none
                | some longs =>
                  let images := longs.filter
                    (fun s => imageHostMarks.any (fun p => strStarts s p))
                  let ownerResponse := findOwnerResponse seq (tl.map (·.1))
                  let published := microsToDate (safeGetNested meta [1, 2])
                  match pyIndex meta 0 with
                  | none => none
                  | some m0 =>
                    match pyStr fuel m0 with
                    | none => none
                    | some reviewIdStr =>
                      match pyStr fuel userId with
                      | none => none
                      | some reviewerIdStr =>
                        match pyInt stars with
                        | none => none
                        | some starsInt =>
                          match pyInt (pyOr totalReviews (.num 0)) with
                          | none => none
                          | some totalInt =>
                            some {
                              reviewId := reviewIdStr
                              reviewerId := reviewerIdStr
                              reviewerName := userName
                              stars := starsInt
                              text := text
                              language := language
                              publishedAtDate := published
                              likesCount := likes
                              ownerResponse := ownerResponse
                              images := images
                              reviewerPhotoUrl := profileImg
                              reviewerNumberOfReviews := totalInt
                              isLocalGuide := isLocalGuide
                              sortDirection := direction
                              extractionConfidence := 1
                              timeAgo := ""
                              hasImages := !images.isEmpty
                              hasOwnerResponse := ownerResponse.isSome }
            | _ => none

/-!
## Envelope decoder (`strip_rpc_prefix` + the envelope part of
`parse_batch`, `optimized_dual_scraper.py` lines 116-121 and 261-277)

Response bodies are Python strings, embedded at the character-list
level.  `json_loads` (`orjson.loads` / `json.loads`) is an external
library treated as a parameter `parse`; a parse exception is `none`.
-/

/-- The fixed anti-execution guard `)]}'` that precedes the JSON body
of the provider's RPC responses. -/
def rpcGuard : List Char := [')', ']', '}', '\'']

/-- `strip_rpc_prefix(response_text)` (lines 116-121): drop the
four-character guard when the body starts with it. -/
def stripRpc (body : List Char) : List Char :=
  if body.take 4 = rpcGuard then body.drop 4 else body

/-- The envelope part of `parse_batch` (lines 264-277): strip the
guard, parse the remainder, require a top-level array of at least 3
elements, and read the next-page cursor from index 1 and the raw entry
list from index 2.  `none` embeds the `return [], None` taken on a
parse exception or a structurally wrong top level. -/
def envelopeDecode (parse : List Char → Option JVal) (body : List Char) :
    Option (JVal × JVal) :=
  match parse (stripRpc body) with
  | some (.arr xs) =>
    if xs.length < 3 then none
    else some (xs.getD 1 .null, xs.getD 2 .null)
  | _ => none

/-!
## Per-entry loop of `parse_batch` (`optimized_dual_scraper.py`
lines 279-298)

For each element of the raw entry list: non-lists are skipped, a
`fast_parse_review` failure is skipped, a record whose `reviewerId` is
already in the shared `seen_reviewer_ids` counts as a duplicate and is
skipped, and an accepted record inserts its `reviewerId` and is
appended to the batch results.
-/

/-- One run of the entry loop of `parse_batch`:
`(accumulated results, seen reviewer ids, duplicates_in_batch)`. -/
def parseEntriesLoop (fuel : Nat) (direction : String) :
    List JVal → List Review → List String → Nat → (List Review × List String × Nat)
  | [], acc, seen, dups => (acc, seen, dups)
  | e :: rest, acc, seen, dups =>
    match e with
    | .arr _ =>
      match fastParseReview fuel e direction with
      | none => parseEntriesLoop fuel direction rest acc seen dups
      | some r =>
        if seen.contains r.reviewerId then
          parseEntriesLoop fuel direction rest acc seen (dups + 1)
        else
          parseEntriesLoop fuel direction rest (acc ++ [r]) (r.reviewerId :: seen) dups
    | _ => parseEntriesLoop fuel direction rest acc seen dups

/-!
## Shared dedup state and the duplicate-driven stop
(`extract.py` lines 49-59 and 616-642, `dual_async_scraper_v3.py`
lines 121-131 and 750-776)

Both direction tasks of `DualAsyncGoogleMapsReviewScraper` share
`seen_reviewer_ids`, `duplicate_count` and the one-shot `stop_scraping`
flag; every check-then-insert runs inside `with self.lock`, so any
interleaving of the two directions is a serialization of these atomic
locked sections.  Accepted records are buffered per direction and later
extended into the shared `all_reviews` under the same lock; only the
membership of records matters to the dedup claims, so the embedding
appends the accepted `reviewerId` at acceptance time.
-/

/-- The orchestrator-owned shared state: `seen_reviewer_ids`,
`duplicate_count`, `stop_scraping` and the aggregated result list
(tracked by accepted `reviewerId`, in acceptance order). -/
structure CrawlShared where
  seenReviewerIds : List String
  duplicateCount : Nat
  stopScraping : Bool
  allReviews : List String
deriving Repr, DecidableEq

/-- The shared state at construction time (`__init__`). -/
def initShared : CrawlShared :=
  { seenReviewerIds := [], duplicateCount := 0, stopScraping := false, allReviews := [] }

/-- One atomic locked section of `parse_reviews_from_response`
(`extract.py` lines 616-642) for one meaningful record:
check the stop flag, then either count a duplicate (raising the shared
stop when the per-request duplicate count exceeds `threshold` — the
literal is `500` in `extract.py`, `100` in `dual_async_scraper_v3.py`),
or atomically insert the `reviewerId` and accept the record.  Returns
the new shared state and the new per-request duplicate count. -/
def lockedStep (threshold : Nat) (dups : Nat) (st : CrawlShared) (rid : String) :
    CrawlShared × Nat :=
  if st.stopScraping then (st, dups)
  else if st.seenReviewerIds.contains rid then
    let dups' := dups + 1
    let st' := { st with duplicateCount := st.duplicateCount + 1 }
    if dups' > threshold then ({ st' with stopScraping := true }, dups')
    else (st', dups')
  else
    ({ st with seenReviewerIds := rid :: st.seenReviewerIds,
               allReviews := st.allReviews ++ [rid] }, dups)

/-- An arbitrary interleaving of the two directions' atomic locked
sections: each event carries the acting direction's current per-request
duplicate counter and the record's `reviewerId`. -/
def runLocked (threshold : Nat) : List (Nat × String) → CrawlShared → CrawlShared
  | [], st => st
  | (dups, rid) :: rest, st => runLocked threshold rest (lockedStep threshold dups st rid).1

/-- The per-request record loop of `parse_reviews_from_response`
(`extract.py` lines 592-709), restricted to the dedup-relevant state:
the loop body runs `lockedStep` for each meaningful record's
`reviewerId` and `break`s as soon as the stop flag is (or becomes)
true. -/
def parseReviewsLoop (threshold : Nat) :
    List String → CrawlShared → Nat → CrawlShared × Nat
  | [], st, dups => (st, dups)
  | rid :: rest, st, dups =>
    let (st', dups') := lockedStep threshold dups st rid
    if st'.stopScraping then (st', dups')
    else parseReviewsLoop threshold rest st' dups'

/-- The number of records of a batch whose `reviewerId` is already in
the given seen-set. -/
def countDups (batch : List String) (seen : List String) : Nat :=
  (batch.filter (fun rid => seen.contains rid)).length

/-- The page loop of `scrape_direction` (`extract.py` lines 751-825)
restricted to the shared stop flag: each iteration first evaluates the
`while not self.stop_scraping` guard, then processes one scripted
batch of meaningful records through `parseReviewsLoop` (with a fresh
`duplicates_in_request = 0`).  Returns the final state and the number
of pages actually processed. -/
def scrapeLoop (threshold : Nat) : List (List String) → CrawlShared → CrawlShared × Nat
  | [], st => (st, 0)
  | batch :: rest, st =>
    if st.stopScraping then (st, 0)
    else
      let st1 := (parseReviewsLoop threshold batch st 0).1
      let (st2, n) := scrapeLoop threshold rest st1
      (st2, n + 1)

/-!
## Cursor selection and the per-direction token history
(`extract.py` lines 100-106 and 788-815,
`dual_async_scraper_v3.py` lines 887-907,
`optimized_dual_scraper.py` lines 343-356)
-/

/-- `get_next_unused_token(available_tokens, used_tokens_set)`
(`extract.py` lines 100-106): the last advertised token not in the
used set. -/
def getNextUnusedToken (tokens : List String) (used : List String) : Option String :=
  tokens.reverse.find? (fun t => !used.contains t)

/-- The inline token choice of `extract.py`'s `scrape_direction`
(lines 792-802): take the last advertised token; when it is already
used, rescan the advertised list from the end for the first unused
one. -/
def chooseNextToken (tokens : List String) (used : List String) : Option String :=
  match tokens.getLast? with
  | none => none
  | some last =>
    if used.contains last then tokens.reverse.find? (fun t => !used.contains t)
    else some last

/-- One scripted page of a direction's `while` loop in
`scrape_direction`: `stopObserved` is the value of the shared
`stop_scraping` flag at the `while` guard; `ok` states that the
request succeeded, the page produced new reviews and the mid-page stop
check passed (all of which otherwise `break` right after the request);
`adv` is the list of `CAESY` continuation tokens advertised by the
response, in order of appearance. -/
structure PageScript where
  stopObserved : Bool
  ok : Bool
  adv : List String
deriving Repr, DecidableEq

/-- The cursor behaviour of one direction of `scrape_direction`
(`extract.py` lines 788-815): the returned list is the sequence of
continuation tokens the direction issues requests with (`none` = the
cursorless first page).  On each page the next token is chosen by
`chooseNextToken` from the advertised tokens; if one is found, the
*current* token is only then added to the direction's used-token set
and the loop continues; otherwise the direction stops. -/
def runDirection : List PageScript → Option String → List String → List (Option String)
  | [], _, _ => []
  | p :: rest, cur, used =>
    if p.stopObserved then []
    else
      cur :: (if p.ok then
        match chooseNextToken p.adv used with
        | none => []
        | some next =>
          runDirection rest (some next)
            (match cur with | some c => c :: used | none => used)
      else [])

/-- One scripted page of the optimized `producer` loop: `stopObserved`
is the `stop_event` value at the `while` guard; `tokenAdv` is the
next-page token the fetched body advertises at index 1 (`none` when it
is missing, falsy, or the quick parse raised). -/
structure ProducerPage where
  stopObserved : Bool
  tokenAdv : Option String
deriving Repr, DecidableEq

/-- The cursor behaviour of `producer`
(`optimized_dual_scraper.py` lines 318-370): issue the current token,
read the advertised next token, stop when it is absent or already in
`used_tokens`, and otherwise mark it used *before* the next request. -/
def runProducer : List ProducerPage → Option String → List String → List (Option String)
  | [], _, _ => []
  | p :: rest, tok, used =>
    if p.stopObserved then []
    else
      tok :: (match p.tokenAdv with
        | none => []
        | some t =>
          if used.contains t then []
          else runProducer rest (some t) (t :: used))

/-!
## Regex-section decoder of `extract.py` / `dual_async_scraper_v3.py`
(`extract_single_review`, `calculate_confidence`)

`extract_single_review` (`extract.py` lines 490-521,
`dual_async_scraper_v3.py` lines 633-660) assembles a review dict from
per-field regex extractors over the section string.  Each extractor is
a pure, total function of the section (every numeric conversion in
them is guarded by a `try/except` or fed from a digits-only regex
group, so none of them raises); the regular-expression engine itself
is an external library, so the extractors enter the embedding as an
environment of pure functions of the section string, while the
assembly of the record and the confidence arithmetic — the parts the
claims are about — are embedded exactly.
-/

/-- The `user_info` dict produced by `extract_user_info`
(`extract.py` lines 214-272). -/
structure UserInfo where
  name : Option String
  profileImage : Option String
  userId : Option String
  reviewCount : Option Int
  isLocalGuide : Bool
  localGuideLevel : Option Int
deriving Repr, DecidableEq

/-- The `date_info` dict produced by `extract_date_info`
(`extract.py` lines 310-350): the `relative_date` key and the
`timestamp`/`iso_date` pair (both set together). -/
structure DateInfo where
  relativeDate : Option String
  timestamp : Option Int
deriving Repr, DecidableEq

/-- Python truthiness of the `date_info` dict: non-empty. -/
def DateInfo.truthy (d : DateInfo) : Bool :=
  d.relativeDate.isSome || d.timestamp.isSome

/-- The review dict assembled by `extract_single_review`, restricted to
the keys consulted by `calculate_confidence` and the claims
(`business_info` and `features` are carried by the code but never
scored).  `reviewText`/`ownerResponse` are `none` when the
corresponding key is absent from the dict. -/
structure ExtractedReview where
  rating : Option Int
  likesCount : Option Int
  userInfo : UserInfo
  dateInfo : DateInfo
  reviewText : Option String
  ownerResponse : Option String
  reviewImages : List String
deriving Repr, DecidableEq

/-- The per-field regex extractors of the section decoder, as an
environment of pure functions of the section string (the composition
in `extract_single_review` is from the source; these leaves wrap the
external regex engine). -/
structure SectionExtractors where
  starRating : String → Option Int
  likesCount : String → Option Int
  userInfo : String → UserInfo
  dateInfo : String → DateInfo
  texts : String → List String
  images : String → List String

/-- `extract_owner_response(texts)` (`extract.py` lines 454-463): with
more than one extracted text, the first later text containing a
gratitude/apology keyword, defaulting to the second text. -/
def extractOwnerResponse (texts : List String) : Option String :=
  if texts.length > 1 then
    match (texts.drop 1).find?
        (fun t => ["thank", "appreciate", "glad", "sorry", "pleasure"].any
          (fun w => strHasSub (strLower t) w)) with
    | some t => some t
    | none => texts.get? 1
  else none

/-- `extract_single_review(section)` (`extract.py` lines 490-521):
assemble the review dict from the per-field extractors; the
`review_text`/`owner_response` keys are set only when the text
extractor returned at least one text. -/
def extractSingleReview (env : SectionExtractors) (sec : String) : ExtractedReview :=
  let texts := env.texts sec
  { rating := env.starRating sec
    likesCount := env.likesCount sec
    userInfo := env.userInfo sec
    dateInfo := env.dateInfo sec
    reviewText := texts.head?
    ownerResponse := if texts.isEmpty then none else extractOwnerResponse texts
    reviewImages := env.images sec }

/-- Truthiness of an optional string dict entry
(`review.get(key)` in a boolean context). -/
def optStrTruthy : Option String → Bool
  | some t => t.length != 0
  | none => false

/-- `calculate_confidence(review)` (`extract.py` lines 523-547,
identically `dual_async_scraper_v3.py` lines 662-686): the weighted
completeness score — identity 30% (name 0.15, user id 0.15), content
40% (text 0.25 plus 0.15 beyond 50 characters), rating 20%, date 10% —
capped at 1.  Python float literals are exact decimal fractions here,
embedded as rationals; for every reachable combination of the six
summands the IEEE-double sum of the source rounds to the double
nearest the same decimal value, so all comparisons in the claims agree
with the rational embedding. -/
def calculateConfidence (review : ExtractedReview) : ℚ :=
  let s1 : ℚ := if optStrTruthy review.userInfo.name then 15/100 else 0
  let s2 : ℚ := if optStrTruthy review.userInfo.userId then 15/100 else 0
  let s3 : ℚ :=
    if optStrTruthy review.reviewText then
      25/100 + (if (review.reviewText.getD "").length > 50 then 15/100 else 0)
    else 0
  let s4 : ℚ := if review.rating.isSome then 20/100 else 0
  let s5 : ℚ := if review.dateInfo.truthy then 10/100 else 0
  min (s1 + s2 + s3 + s4 + s5) 1

/-!
## Place-identifier normalization
(`extract.py` lines 29-31, `dual_async_scraper_v3.py` lines 104-106,
`optimized_dual_scraper.py` lines 61-63)

All three constructors run
`place_id.replace("0x", "") if place_id.startswith("0x") else place_id`.
-/

/-- Python `s.replace("0x", "")`: left-to-right, non-overlapping
removal of every occurrence of `0x`. -/
def stripHexMarkers : List Char → List Char
  | [] => []
  | [c] => [c]
  | c1 :: c2 :: rest =>
    if c1 = '0' ∧ c2 = 'x' then stripHexMarkers rest
    else c1 :: stripHexMarkers (c2 :: rest)

/-- The `place_id` normalization shared by all three scraper
constructors: strip every `0x` when the identifier starts with `0x`,
otherwise keep it unchanged. -/
def normalizePlaceId (placeId : List Char) : List Char :=
  if placeId.take 2 = ['0', 'x'] then stripHexMarkers placeId else placeId

/-- A concrete extractor-outcome environment for the section decoder:
the section matches the name/photo/user-id regexes, a relative date,
and a review text longer than 50 characters, but no rating pattern —
realizable by a review section that carries author, date and a long
text but no `[[N],` rating marker and no `"N stars"` phrase. -/
def fullFieldsNoRatingEnv : SectionExtractors :=
  { starRating := fun _ => none
    likesCount := fun _ => none
    userInfo := fun _ =>
      { name := some "Alice", profileImage := none,
        userId := some "123456789012345678901", reviewCount := none,
        isLocalGuide := false, localGuideLevel := none }
    dateInfo := fun _ => { relativeDate := some "2 years ago", timestamp := none }
    texts := fun _ =>
      ["The staff were genuinely friendly and the food was consistently excellent here."]
    images := fun _ => [] }

/-- The fixed nested rating position read by `fast_parse_review`:
`safe_get_nested(review_data[0], 2, 0, 0)` (`null` when the `[0]`
subscription itself would raise, which also yields no record). -/
def ratingAt (reviewData : JVal) : JVal :=
  match pyIndex reviewData 0 with
  | some m => safeGetNested m [2, 0, 0]
  | none => .null

/-!
# Theorems
-/

/-- Invariant of the locked dedup sections: the aggregated result list
stays duplicate-free and every accepted `reviewerId` is in the shared
seen-set. -/
lemma runLocked_invariant (threshold : Nat) (events : List (Nat × String))
    (st : CrawlShared) (hnd : st.allReviews.Nodup)
    (hsub : ∀ rid ∈ st.allReviews, rid ∈ st.seenReviewerIds) :
    ((runLocked threshold events st).allReviews).Nodup ∧
      ∀ rid ∈ (runLocked threshold events st).allReviews,
        rid ∈ (runLocked threshold events st).seenReviewerIds := by
  induction events generalizing st with
  | nil => exact ⟨hnd, hsub⟩
  | cons e rest ih =>
    obtain ⟨dups, rid⟩ := e
    rw [runLocked]
    by_cases hstop : st.stopScraping = true
    · simp only [lockedStep, hstop, if_true]
      exact ih st hnd hsub
    · by_cases hseen : rid ∈ st.seenReviewerIds
      · have hc : st.seenReviewerIds.contains rid = true := by
          simpa using hseen
        simp only [lockedStep, hstop, hc, if_false, if_true]
        by_cases hth : dups + 1 > threshold
        · simp only [hth, if_true]
          exact ih _ hnd hsub
        · simp only [hth, if_false]
          exact ih _ hnd hsub
      · have hc : st.seenReviewerIds.contains rid = false := by
          simpa using hseen
        simp only [lockedStep, hstop, hc, Bool.false_eq_true, if_false]
        apply ih
        · refine List.Nodup.append hnd (by simp) ?_
          intro a ha hb
          simp only [List.mem_singleton] at hb
          subst hb
          exact hseen (hsub a ha)
        · intro r hr
          simp only [List.mem_append, List.mem_singleton] at hr
          rcases hr with hr | hr
          · exact List.mem_cons_of_mem _ (hsub r hr)
          · subst hr
            exact List.mem_cons_self _ _

/-- Claim C1: under any interleaving of the two concurrent sort-direction
streams, the final aggregated result list contains at most one review
record per distinct `reviewerId`: every atomic locked check-then-insert
step appends a record only when its `reviewerId` was absent from the
shared `seen_reviewer_ids` set and inserts it in the same step, so the
aggregated list (over an arbitrary serialization of the two directions'
locked sections, for any configured duplicate threshold) never repeats
a `reviewerId`. -/
theorem dedup_invariant_unique_reviewerIds (threshold : Nat)
    (events : List (Nat × String)) :
    ((runLocked threshold events initShared).allReviews).Nodup :=
  (runLocked_invariant threshold events initShared (by simp [initShared])
    (by simp [initShared])).1

/-- A pointwise implication between filter predicates bounds the
filtered lengths. -/
lemma length_filter_le_of_imp {α : Type} (l : List α) (p q : α → Bool)
    (h : ∀ a, p a = true → q a = true) :
    (l.filter p).length ≤ (l.filter q).length := by
  induction l with
  | nil => simp
  | cons a rest ih =>
    rcases hp : p a with _ | _
    · rcases hq : q a with _ | _
      · simpa [List.filter_cons, hp, hq] using ih
      · simp only [List.filter_cons, hp, hq]
        simp only [Bool.false_eq_true, if_false, if_true]
        exact le_trans ih (by simp)
    · simp [List.filter_cons, hp, h a hp, Nat.succ_le_succ ih]

/-- Once the per-request duplicate count plus the remaining duplicates
must exceed the threshold, `parse_reviews_from_response` raises the
shared stop flag before the batch ends. -/
lemma parseReviewsLoop_fires (threshold : Nat) (batch : List String)
    (st : CrawlShared) (dups : Nat)
    (hstop : st.stopScraping = false) (hd : dups ≤ threshold)
    (hcount : threshold < dups + countDups batch st.seenReviewerIds) :
    ((parseReviewsLoop threshold batch st dups).1).stopScraping = true := by
  induction batch generalizing st dups with
  | nil =>
    exfalso
    simp [countDups] at hcount
    omega
  | cons rid rest ih =>
    obtain ⟨seen, dc, stop, all⟩ := st
    simp only at hstop hcount
    subst hstop
    rw [parseReviewsLoop]
    by_cases hseen : rid ∈ seen
    · have hcd : countDups (rid :: rest) seen = countDups rest seen + 1 := by
        simp [countDups, List.filter_cons, hseen]
      by_cases hth : dups + 1 > threshold
      · simp [lockedStep, hseen, hth]
      · have hrec := ih ⟨seen, dc + 1, false, all⟩ (dups + 1) rfl (by omega)
          (by simp only [] ; rw [hcd] at hcount ; omega)
        simp only [lockedStep]
        simpa [hseen, hth] using hrec
    · have hmono : countDups rest seen ≤ countDups rest (rid :: seen) := by
        apply length_filter_le_of_imp
        intro a ha
        simp only [List.contains_iff_exists_mem_beq] at ha ⊢
        obtain ⟨b, hb, hba⟩ := ha
        exact ⟨b, List.mem_cons_of_mem _ hb, hba⟩
      have hcd : countDups (rid :: rest) seen = countDups rest seen := by
        simp [countDups, List.filter_cons, hseen]
      have hrec := ih ⟨rid :: seen, dc, false, all ++ [rid]⟩ dups rfl hd
        (by simp only [] ; rw [hcd] at hcount ; omega)
      simp only [lockedStep]
      simpa [hseen] using hrec

/-- With the shared stop flag raised, a direction's page loop exits at
its very next `while` guard: no further page is processed. -/
lemma scrapeLoop_stopped (threshold : Nat) (batches : List (List String))
    (st : CrawlShared) (h : st.stopScraping = true) :
    scrapeLoop threshold batches st = (st, 0) := by
  cases batches <;> simp [scrapeLoop, h]

/-- Claim C3: whenever the number of records of one response batch whose
`reviewerId` is already in the shared `seen_reviewer_ids` exceeds the
configured duplicate threshold (the literal is 500 in `extract.py`,
100 in `dual_async_scraper_v3.py`), processing that batch raises the
one-shot shared stop flag, and from then on each of the two direction
streams processes zero further pages — each observes the flag at its
next `while` guard and stops within one page-cycle. -/
theorem duplicate_threshold_stops_both_directions (threshold : Nat)
    (batch : List String) (st : CrawlShared)
    (pagesHighest pagesLowest : List (List String))
    (hstop : st.stopScraping = false)
    (hcount : threshold < countDups batch st.seenReviewerIds) :
    ((parseReviewsLoop threshold batch st 0).1).stopScraping = true ∧
    scrapeLoop threshold pagesHighest (parseReviewsLoop threshold batch st 0).1 =
      ((parseReviewsLoop threshold batch st 0).1, 0) ∧
    scrapeLoop threshold pagesLowest (parseReviewsLoop threshold batch st 0).1 =
      ((parseReviewsLoop threshold batch st 0).1, 0) := by
  have hfire := parseReviewsLoop_fires threshold batch st 0 hstop (by omega)
    (by omega)
  exact ⟨hfire, scrapeLoop_stopped _ _ _ hfire, scrapeLoop_stopped _ _ _ hfire⟩

/-- Witness for C3 at a concrete state: with threshold 1, a batch with
two records of an already-seen reviewer stops both directions. -/
theorem duplicate_threshold_stops_witness :
    ((parseReviewsLoop 1 ["r", "r"]
        { seenReviewerIds := ["r"], duplicateCount := 0,
          stopScraping := false, allReviews := ["r"] } 0).1).stopScraping = true ∧
    scrapeLoop 1 [["s"], ["t"]]
        (parseReviewsLoop 1 ["r", "r"]
          { seenReviewerIds := ["r"], duplicateCount := 0,
            stopScraping := false, allReviews := ["r"] } 0).1 =
      ((parseReviewsLoop 1 ["r", "r"]
          { seenReviewerIds := ["r"], duplicateCount := 0,
            stopScraping := false, allReviews := ["r"] } 0).1, 0) ∧
    scrapeLoop 1 [["u"]]
        (parseReviewsLoop 1 ["r", "r"]
          { seenReviewerIds := ["r"], duplicateCount := 0,
            stopScraping := false, allReviews := ["r"] } 0).1 =
      ((parseReviewsLoop 1 ["r", "r"]
          { seenReviewerIds := ["r"], duplicateCount := 0,
            stopScraping := false, allReviews := ["r"] } 0).1, 0) :=
  duplicate_threshold_stops_both_directions 1 ["r", "r"]
    { seenReviewerIds := ["r"], duplicateCount := 0,
      stopScraping := false, allReviews := ["r"] }
    [["s"], ["t"]] [["u"]] (by decide) (by decide)

/-- The token chosen by `extract.py`'s inline selection is never in the
used-token set at selection time. -/
lemma chooseNextToken_not_used (adv : List String) (used : List String)
    (next : String) (h : chooseNextToken adv used = some next) :
    used.contains next = false := by
  unfold chooseNextToken at h
  split at h
  · exact absurd h (by simp)
  · rename_i last hlast
    split at h
    · have := List.find?_some h
      simpa using this
    · rename_i hused
      obtain rfl : last = next := by simpa using h
      simpa using hused

/-- A token already in the used set is issued at most once more by
`scrape_direction` (only as the current cursor of the next page). -/
lemma runDirection_count_of_used (ps : List PageScript) (cur : Option String)
    (used : List String) (t : String) (h : used.contains t = true) :
    (runDirection ps cur used).count (some t) ≤
      (if cur = some t then 1 else 0) := by
  induction ps generalizing cur used with
  | nil => simp [runDirection]
  | cons p rest ih =>
    obtain ⟨pstop, pok, padv⟩ := p
    rcases pstop with _ | _
    · rcases pok with _ | _
      · -- page breaks after the request: only the current cursor issued
        by_cases hc : cur = some t <;>
          simp [runDirection, List.count_cons, hc, beq_iff_eq]
      · simp only [runDirection]
        rcases hnext : chooseNextToken padv used with _ | next
        · by_cases hc : cur = some t <;>
            simp [List.count_cons, hc, beq_iff_eq]
        · have hnu := chooseNextToken_not_used padv used next hnext
          have hnt : next ≠ t := by
            intro he
            rw [he, h] at hnu
            exact absurd hnu (by simp)
          rcases cur with _ | c
          · have htail := ih (some next) used h
            rw [if_neg (by simpa using hnt)] at htail
            simpa using htail
          · have htail := ih (some next) (c :: used)
              (by
                have : t ∈ used := by simpa using h
                simp [this])
            rw [if_neg (by simpa using hnt)] at htail
            by_cases hct : t = c
            · subst hct
              simpa [List.count_cons, beq_iff_eq] using htail
            · simp only [List.count_cons]
              have : ¬ (some c = some t) := by simpa using fun he => hct he.symm
              simpa [beq_iff_eq, fun he : t = c => hct he, this] using htail
    · simp [runDirection]

/-- A token not yet in the used set is issued at most twice by
`scrape_direction`. -/
lemma runDirection_count_of_fresh (ps : List PageScript) (cur : Option String)
    (used : List String) (t : String) (h : used.contains t = false) :
    (runDirection ps cur used).count (some t) ≤ 2 := by
  induction ps generalizing cur used with
  | nil => simp [runDirection]
  | cons p rest ih =>
    obtain ⟨pstop, pok, padv⟩ := p
    rcases pstop with _ | _
    · rcases pok with _ | _
      · by_cases hc : cur = some t <;>
          simp [runDirection, List.count_cons, hc, beq_iff_eq]
      · simp only [runDirection]
        rcases hnext : chooseNextToken padv used with _ | next
        · by_cases hc : cur = some t <;>
            simp [List.count_cons, hc, beq_iff_eq]
        · rcases cur with _ | c
          · have htail := ih (some next) used h
            simpa using htail
          · by_cases hct : c = t
            · subst hct
              have htail := runDirection_count_of_used rest (some next)
                (c :: used) c (by simp)
              have hb : (runDirection rest (some next) (c :: used)).count (some c) ≤ 1 := by
                refine le_trans htail ?_
                split <;> omega
              simp only [List.count_cons, beq_iff_eq]
              simp
              omega
            · have htail := ih (some next) (c :: used)
                (by
                  have h1 : ¬ t ∈ used := by simpa using h
                  have h2 : ¬ t = c := fun he => hct he.symm
                  simp [h1, h2])
              simp only [List.count_cons]
              have hne : ¬ ((some t : Option String) = some c) := by
                simpa using fun he => hct he.symm
              simp [hne]
              omega
    · simp [runDirection]

/-- Every cursor issued by the optimized `producer` is either its
current token or still unused. -/
lemma runProducer_mem (ps : List ProducerPage) (tok : Option String)
    (used : List String) (s : String)
    (hs : s ∈ (runProducer ps tok used).filterMap id) :
    some s = tok ∨ used.contains s = false := by
  induction ps generalizing tok used with
  | nil => simp [runProducer] at hs
  | cons p rest ih =>
    obtain ⟨pstop, padv⟩ := p
    rcases pstop with _ | _
    · simp only [runProducer, Bool.false_eq_true, if_false] at hs
      rcases padv with _ | tnew
      · rcases tok with _ | c
        · simp at hs
        · left
          simpa using (by simpa using hs : s = c)
      · by_cases hu : used.contains tnew = true
        · simp only [hu, if_true] at hs
          rcases tok with _ | c
          · simp at hs
          · left
            simpa using (by simpa using hs : s = c)
        · dsimp only at hs
          rw [if_neg hu] at hs
          have hsplit : (some s = tok) ∨
              s ∈ (runProducer rest (some tnew) (tnew :: used)).filterMap id := by
            rcases tok with _ | c
            · right
              simpa using hs
            · rcases (by simpa using hs : s = c ∨
                  s ∈ (runProducer rest (some tnew) (tnew :: used)).filterMap id) with he | hm
              · left
                rw [he]
              · right
                exact hm
          rcases hsplit with he | hm
          · left
            exact he
          · rcases ih (some tnew) (tnew :: used) hm with he | hfr
            · obtain rfl : s = tnew := by simpa using he
              right
              simpa using hu
            · right
              have : ¬ (s = tnew ∨ s ∈ used) := by simpa using hfr
              simpa using fun hm2 => this (Or.inr hm2)
    · simp [runProducer] at hs

/-- The optimized `producer` never issues the same cursor twice: it
inserts each chosen token into `used_tokens` before requesting with it
and never chooses a used token. -/
lemma runProducer_nodup (ps : List ProducerPage) (tok : Option String)
    (used : List String)
    (hinv : ∀ c, tok = some c → used.contains c = true) :
    ((runProducer ps tok used).filterMap id).Nodup := by
  induction ps generalizing tok used with
  | nil => simp [runProducer]
  | cons p rest ih =>
    obtain ⟨pstop, padv⟩ := p
    rcases pstop with _ | _
    · simp only [runProducer, Bool.false_eq_true, if_false]
      rcases padv with _ | tnew
      · rcases tok with _ | c <;> simp
      · by_cases hu : used.contains tnew = true
        · simp only [hu, if_true]
          rcases tok with _ | c <;> simp
        · dsimp only
          rw [if_neg hu]
          have htail := ih (some tnew) (tnew :: used)
            (by
              intro c hc
              obtain rfl : tnew = c := by simpa using hc
              simp)
          rcases tok with _ | c
          · simpa using htail
          · have hc : used.contains c = true := hinv c rfl
            have hnotin : c ∉ (runProducer rest (some tnew) (tnew :: used)).filterMap id := by
              intro hm
              rcases runProducer_mem rest (some tnew) (tnew :: used) c hm with he | hfr
              · obtain rfl : c = tnew := by simpa using he
                rw [hc] at hu
                exact absurd hu (by simp)
              · have : ¬ (c = tnew ∨ c ∈ used) := by simpa using hfr
                exact this (Or.inr (by simpa using hc))
            have hnotin2 : some c ∉ runProducer rest (some tnew) (tnew :: used) :=
              fun hm => hnotin (by simpa using hm)
            simpa using ⟨hnotin2, htail⟩
    · simp [runProducer]

/-- Claim C2, counterexample: `extract.py`'s `scrape_direction` can issue the
same cursor value twice.  Three pages that each advertise the single
token `"CAESY0tok"` make the direction request with that token on page
2 and again on page 3, because the current token is added to
`used_tokens` only when advancing past it. -/
theorem cursor_reissued_twice_counterexample :
    1 < (runDirection
      [{ stopObserved := false, ok := true, adv := ["CAESY0tok"] },
       { stopObserved := false, ok := true, adv := ["CAESY0tok"] },
       { stopObserved := false, ok := true, adv := ["CAESY0tok"] }]
      none []).count (some "CAESY0tok") := by decide

/-- Claim C2, amended: a direction stream never issues a cursor that was
chosen while in `usedCursors` — in `extract.py` the current cursor is
added to `usedCursors` only on advancing, so the same cursor value can
be issued at most twice (and the stream then stops rather than
looping), while the optimized `producer` marks every chosen cursor
used before requesting with it and never issues the same cursor value
twice. -/
theorem cursor_reissue_bounded :
    (∀ (pages : List PageScript) (t : String),
        (runDirection pages none []).count (some t) ≤ 2) ∧
    (∀ (script : List ProducerPage),
        ((runProducer script none []).filterMap id).Nodup) :=
  ⟨fun pages t => runDirection_count_of_fresh pages none [] t (by simp),
   fun script => runProducer_nodup script none [] (by simp)⟩

/-- The inline last-then-rescan choice of `extract.py`'s
`scrape_direction` computes exactly `get_next_unused_token`. -/
lemma chooseNextToken_eq_getNextUnusedToken (tokens used : List String) :
    chooseNextToken tokens used = getNextUnusedToken tokens used := by
  unfold chooseNextToken getNextUnusedToken
  split
  · rename_i hlast
    have : tokens = [] := by simpa using hlast
    subst this
    simp
  · rename_i last hlast
    obtain ⟨rest, hr⟩ : ∃ rest, tokens.reverse = last :: rest := by
      have hrev : tokens.reverse.head? = some last := by
        rw [List.head?_reverse]
        exact hlast
      rcases hc : tokens.reverse with _ | ⟨a, as⟩
      · rw [hc] at hrev
        exact absurd hrev (by simp)
      · rw [hc] at hrev
        obtain rfl : a = last := by simpa using hrev
        exact ⟨as, rfl⟩
    split
    · rfl
    · rename_i hu
      rw [hr, List.find?_cons_of_pos _ (by simpa using hu)]

/-- `get_next_unused_token` characterized: it returns `t` exactly when
`t` is an unused advertised token and every token advertised after it
is already used (newest-first preference). -/
lemma getNextUnusedToken_eq_some_iff (tokens used : List String) (t : String) :
    getNextUnusedToken tokens used = some t ↔
      t ∉ used ∧ ∃ pre post, tokens = pre ++ t :: post ∧ ∀ u ∈ post, u ∈ used := by
  unfold getNextUnusedToken
  rw [List.find?_eq_some]
  constructor
  · rintro ⟨hp, as, bs, hsplit, hall⟩
    refine ⟨by simpa using hp, bs.reverse, as.reverse, ?_, ?_⟩
    · have := congrArg List.reverse hsplit
      simpa [List.reverse_append] using this
    · intro u hu
      have := hall u (by simpa using hu)
      simpa using this
  · rintro ⟨hp, pre, post, rfl, hall⟩
    refine ⟨by simpa using hp, post.reverse, pre.reverse, ?_, ?_⟩
    · simp [List.reverse_append]
    · intro u hu
      have := hall u (by simpa using hu)
      simpa using this

/-- `get_next_unused_token` is exhausted exactly when every advertised
token is already used. -/
lemma getNextUnusedToken_eq_none_iff (tokens used : List String) :
    getNextUnusedToken tokens used = none ↔ ∀ u ∈ tokens, u ∈ used := by
  unfold getNextUnusedToken
  rw [List.find?_eq_none]
  constructor
  · intro h u hu
    have := h u (by simpa using hu)
    simpa using this
  · intro h u hu
    have := h u (by simpa using hu)
    simpa using this

/-- Claim C8: next-cursor selection is newest-first.  The inline selection of
`scrape_direction` equals `get_next_unused_token`; the selected cursor
is exactly the most recently advertised cursor not in `usedCursors`
(every cursor advertised after it is used); selection fails exactly
when every advertised cursor is used, and in that case the direction
issues no further request and stops. -/
theorem cursor_selection_newest_first (tokens used : List String) :
    (chooseNextToken tokens used = getNextUnusedToken tokens used) ∧
    (∀ t, getNextUnusedToken tokens used = some t ↔
      t ∉ used ∧ ∃ pre post, tokens = pre ++ t :: post ∧ ∀ u ∈ post, u ∈ used) ∧
    (getNextUnusedToken tokens used = none ↔ ∀ u ∈ tokens, u ∈ used) ∧
    (∀ (rest : List PageScript) (cur : Option String),
      (∀ u ∈ tokens, u ∈ used) →
      runDirection ({ stopObserved := false, ok := true, adv := tokens } :: rest)
        cur used = [cur]) := by
  refine ⟨chooseNextToken_eq_getNextUnusedToken tokens used,
    fun t => getNextUnusedToken_eq_some_iff tokens used t,
    getNextUnusedToken_eq_none_iff tokens used, ?_⟩
  intro rest cur hall
  have hnone : chooseNextToken tokens used = none := by
    rw [chooseNextToken_eq_getNextUnusedToken]
    exact (getNextUnusedToken_eq_none_iff tokens used).mpr hall
  simp [runDirection, hnone]

/-- Witness for C8: with tokens `["a", "b"]`, the most recent unused
token is preferred (`"b"` when nothing is used, `"a"` once `"b"` is
used), and a page whose advertised tokens are all used stops the
direction after the current request. -/
theorem cursor_selection_newest_first_witness :
    getNextUnusedToken ["a", "b"] [] = some "b" ∧
    getNextUnusedToken ["a", "b"] ["b"] = some "a" ∧
    runDirection [{ stopObserved := false, ok := true, adv := ["a", "b"] }]
      none ["a", "b"] = [none] := by
  refine ⟨?_, ?_, ?_⟩
  · exact ((cursor_selection_newest_first ["a", "b"] []).2.1 "b").mpr
      ⟨by simp, ["a"], [], rfl, by simp⟩
  · exact ((cursor_selection_newest_first ["a", "b"] ["b"]).2.1 "a").mpr
      ⟨by simp, [], ["b"], rfl, by simp⟩
  · exact (cursor_selection_newest_first ["a", "b"] ["a", "b"]).2.2.2 [] none
      (by simp)

/-- Claim C4: for every raw body made of the anti-execution guard followed by
text that parses to a top-level JSON array of at least 3 elements, the
envelope decoder returns the next-page cursor from fixed position 1
and the raw entry list from fixed position 2 of that array, and it
returns exactly the same pair for the same body without the guard. -/
theorem envelope_fixed_positions (parse : List Char → Option JVal)
    (rest : List Char) (entries : List JVal)
    (hparse : parse rest = some (.arr entries))
    (hlen : 3 ≤ entries.length)
    (hnp : rest.take 4 ≠ rpcGuard) :
    envelopeDecode parse (rpcGuard ++ rest) =
      some (entries.getD 1 .null, entries.getD 2 .null) ∧
    envelopeDecode parse rest = envelopeDecode parse (rpcGuard ++ rest) := by
  have hstrip1 : stripRpc (rpcGuard ++ rest) = rest := by
    unfold stripRpc
    rw [if_pos]
    · show (rpcGuard ++ rest).drop 4 = rest
      have h4 : rpcGuard.length = 4 := rfl
      rw [← h4, List.drop_left]
    · show (rpcGuard ++ rest).take 4 = rpcGuard
      have h4 : rpcGuard.length = 4 := rfl
      rw [← h4, List.take_left]
  have hstrip2 : stripRpc rest = rest := by
    unfold stripRpc
    rw [if_neg hnp]
  constructor
  · unfold envelopeDecode
    rw [hstrip1, hparse]
    dsimp only
    rw [if_neg (by omega)]
  · unfold envelopeDecode
    rw [hstrip1, hstrip2]

/-- Witness for C4: the spec's envelope scenario — the guard followed
by `[null,"tok1",[["e"]]]` yields cursor `"tok1"` and the entry list
unchanged, and the unguarded body decodes identically. -/
theorem envelope_fixed_positions_witness :
    envelopeDecode
      (fun s => if s = '\n' :: "[null,\"tok1\",[[\"e\"]]]".data
        then some (JVal.arr [.null, .str "tok1", .arr [.arr [.str "e"]]]) else none)
      (rpcGuard ++ ('\n' :: "[null,\"tok1\",[[\"e\"]]]".data)) =
      some (.str "tok1", .arr [.arr [.str "e"]]) ∧
    envelopeDecode
      (fun s => if s = '\n' :: "[null,\"tok1\",[[\"e\"]]]".data
        then some (JVal.arr [.null, .str "tok1", .arr [.arr [.str "e"]]]) else none)
      ('\n' :: "[null,\"tok1\",[[\"e\"]]]".data) =
    envelopeDecode
      (fun s => if s = '\n' :: "[null,\"tok1\",[[\"e\"]]]".data
        then some (JVal.arr [.null, .str "tok1", .arr [.arr [.str "e"]]]) else none)
      (rpcGuard ++ ('\n' :: "[null,\"tok1\",[[\"e\"]]]".data)) := by
  have h := envelope_fixed_positions
    (fun s => if s = '\n' :: "[null,\"tok1\",[[\"e\"]]]".data
      then some (JVal.arr [.null, .str "tok1", .arr [.arr [.str "e"]]]) else none)
    ('\n' :: "[null,\"tok1\",[[\"e\"]]]".data)
    [.null, .str "tok1", .arr [.arr [.str "e"]]]
    (by simp) (by simp) (by decide)
  exact ⟨h.1, h.2⟩

/-- Claim C5, counterexample: the fast decoder does not fail closed on an
out-of-range rating.  An entry whose fixed rating position holds `7`
(outside 1-5) still produces a review record, with `stars = 7`. -/
theorem rating_out_of_range_not_rejected :
    ((fastParseReview 50 (.arr [.arr [.str "rev1", .arr [.null, .null, .null],
        .arr [.arr [.num 7]],
        .arr [.str "Alice", .str "https://lh3.googleusercontent.com/a/p",
          .arr [], .str "12345", .null, .num 10]]]) "HIGHEST").map
      (fun r => r.stars)) = some 7 ∧ ¬ (1 ≤ (7 : Int) ∧ (7 : Int) ≤ 5) :=
  ⟨rfl, by decide⟩

/-- Claim C5, amended: the fast decoder fails closed when the value at the
fixed nested rating position is absent (`None`), and never substitutes
a fabricated default: every produced record carries exactly the
`int`-conversion of the value found at that position (so an absent
rating yields no record); values outside 1-5 are, however, passed
through unchecked. -/
theorem rating_read_from_fixed_position (fuel : Nat) (entry : JVal)
    (direction : String) (rev : Review)
(h : fastParseReview fuel entry direction = some rev) :
    (ratingAt entry).isNull = false ∧ pyInt (ratingAt entry) = some rev.stars := by
  unfold fastParseReview at h
  rcases hmeta : pyIndex entry 0 with _ | meta
  · rw [hmeta] at h
    simp at h
  · rw [hmeta] at h
    dsimp only at h
    have hrat : ratingAt entry = safeGetNested meta [2, 0, 0] := by
      unfold ratingAt
      rw [hmeta]
    rcases hnn : (safeGetNested meta [2, 0, 0]).isNull with _ | _
    case true =>
      rw [hnn] at h
      simp at h
    case false =>
    rw [hnn] at h
    simp only [Bool.false_eq_true, if_false] at h
    rcases hm2 : pyIndex meta 2 with _ | m2
    · rw [hm2] at h
      simp at h
    · rw [hm2] at h
      dsimp only at h
      rcases hseq : pySeq m2 with _ | seq
      · rw [hseq] at h
        simp at h
      · rw [hseq] at h
        dsimp only at h
        rcases hub : findUserMeta fuel meta with _ | ub'
        · rw [hub] at h
          simp at h
        · rw [hub] at h
          rcases ub' with _ | ub
          · dsimp only at h
            simp at h
          · dsimp only at h
            split at h
            all_goals try simp at h
            rename_i userName profileImg c0 userId tl0
            rcases hlk : findLikes fuel meta with _ | likes
            · rw [hlk] at h
              simp at h
            · rw [hlk] at h
              dsimp only at h
              rcases hls : longStrings fuel meta with _ | longs
              · rw [hls] at h
                simp at h
              · rw [hls] at h
                dsimp only at h
                rcases hm0 : pyIndex meta 0 with _ | m0
                · rw [hm0] at h
                  simp at h
                · rw [hm0] at h
                  dsimp only at h
                  rcases hs1 : pyStr fuel m0 with _ | rid0
                  · rw [hs1] at h
                    simp at h
                  · rw [hs1] at h
                    dsimp only at h
                    rcases hs2 : pyStr fuel userId with _ | rid1
                    · rw [hs2] at h
                      simp at h
                    · rw [hs2] at h
                      dsimp only at h
                      rcases hpi : pyInt (safeGetNested meta [2, 0, 0]) with _ | starsInt
                      · rw [hpi] at h
                        simp at h
                      · rw [hpi] at h
                        dsimp only at h
                        split at h
                        all_goals try simp at h
                        rename_i totalInt htot
                        obtain rfl : _ = rev := h
                        exact ⟨by rw [hrat]; exact hnn, by rw [hrat, hpi]⟩

/-- Witness for C5 (amended) at the counterexample entry: its rating
position is non-null and converts to the produced `stars` value 7. -/
theorem rating_read_from_fixed_position_witness :
    (ratingAt (.arr [.arr [.str "rev1", .arr [.null, .null, .null],
        .arr [.arr [.num 7]],
        .arr [.str "Alice", .str "https://lh3.googleusercontent.com/a/p",
          .arr [], .str "12345", .null, .num 10]]])).isNull = false ∧
    pyInt (ratingAt (.arr [.arr [.str "rev1", .arr [.null, .null, .null],
        .arr [.arr [.num 7]],
        .arr [.str "Alice", .str "https://lh3.googleusercontent.com/a/p",
          .arr [], .str "12345", .null, .num 10]]])) = some 7 := by
  have h := rating_read_from_fixed_position 50
    (.arr [.arr [.str "rev1", .arr [.null, .null, .null],
      .arr [.arr [.num 7]],
      .arr [.str "Alice", .str "https://lh3.googleusercontent.com/a/p",
        .arr [], .str "12345", .null, .num 10]]]) "HIGHEST"
    { reviewId := "rev1", reviewerId := "12345", reviewerName := "Alice",
      stars := 7, text := "", language := "en", publishedAtDate := none,
      likesCount := 0, ownerResponse := none, images := [],
      reviewerPhotoUrl := "https://lh3.googleusercontent.com/a/p",
      reviewerNumberOfReviews := 10, isLocalGuide := false,
      sortDirection := "HIGHEST", extractionConfidence := 1, timeAgo := "",
      hasImages := false, hasOwnerResponse := false } rfl
  exact ⟨h.1, h.2⟩

/-- Claim C9: a failure to decode one review entry is recovered locally.
Removing a failing entry (a non-list entry, or one on which
`fast_parse_review` returns no record — which embeds every per-entry
exception, since the decoder catches them all and returns `None`) from
anywhere in a batch leaves the batch results, the shared seen-set and
the duplicate count unchanged: only that entry is skipped, every other
entry is still processed, and nothing aborts the batch. -/
theorem entry_decode_failure_isolated (fuel : Nat) (direction : String)
    (pre post : List JVal) (bad : JVal)
    (acc : List Review) (seen : List String) (dups : Nat)
    (hbad : bad.isArr = false ∨ fastParseReview fuel bad direction = none) :
    parseEntriesLoop fuel direction (pre ++ bad :: post) acc seen dups =
      parseEntriesLoop fuel direction (pre ++ post) acc seen dups := by
  induction pre generalizing acc seen dups with
  | nil =>
    simp only [List.nil_append]
    rcases hbad with hb | hb
    · rcases bad with _ | _ | _ | _ | xs
      case arr => simp [JVal.isArr] at hb
      all_goals rfl
    · rcases bad with _ | _ | _ | _ | xs
      case arr => simp [parseEntriesLoop, hb]
      all_goals rfl
  | cons e pre ih =>
    simp only [List.cons_append]
    rcases e with _ | _ | _ | _ | xs
    case arr =>
      rcases hfp : fastParseReview fuel (.arr xs) direction with _ | r
      · simp only [parseEntriesLoop, hfp]
        exact ih _ _ _
      · by_cases hc : seen.contains r.reviewerId = true
        · simp only [parseEntriesLoop, hfp, hc, if_true]
          exact ih _ _ _
        · simp only [parseEntriesLoop, hfp, hc, Bool.false_eq_true, if_false]
          exact ih _ _ _
    all_goals
      simp only [parseEntriesLoop]
      exact ih _ _ _

/-- Witness for C9: dropping a malformed entry (`null`, which raises on
its first subscription and is skipped) between two decodable entries
changes nothing about the processed batch. -/
theorem entry_decode_failure_isolated_witness :
    parseEntriesLoop 50 "HIGHEST"
      [.arr [.arr [.str "rev1", .arr [.null, .null, .null],
          .arr [.arr [.num 5]],
          .arr [.str "Alice", .str "https://lh3.googleusercontent.com/a/p",
            .arr [], .str "12345", .null, .num 10]]],
        .null,
        .arr [.arr [.str "rev2", .arr [.null, .null, .null],
          .arr [.arr [.num 4]],
          .arr [.str "Bob", .str "https://lh3.googleusercontent.com/a/q",
            .arr [], .str "67890", .null, .num 3]]]]
      [] [] 0 =
    parseEntriesLoop 50 "HIGHEST"
      [.arr [.arr [.str "rev1", .arr [.null, .null, .null],
          .arr [.arr [.num 5]],
          .arr [.str "Alice", .str "https://lh3.googleusercontent.com/a/p",
            .arr [], .str "12345", .null, .num 10]]],
        .arr [.arr [.str "rev2", .arr [.null, .null, .null],
          .arr [.arr [.num 4]],
          .arr [.str "Bob", .str "https://lh3.googleusercontent.com/a/q",
            .arr [], .str "67890", .null, .num 3]]]]
      [] [] 0 :=
  entry_decode_failure_isolated 50 "HIGHEST"
    [.arr [.arr [.str "rev1", .arr [.null, .null, .null],
      .arr [.arr [.num 5]],
      .arr [.str "Alice", .str "https://lh3.googleusercontent.com/a/p",
        .arr [], .str "12345", .null, .num 10]]]]
    [.arr [.arr [.str "rev2", .arr [.null, .null, .null],
      .arr [.arr [.num 4]],
      .arr [.str "Bob", .str "https://lh3.googleusercontent.com/a/q",
        .arr [], .str "67890", .null, .num 3]]]]
    .null [] [] 0 (Or.inl rfl)

/-- `replace("0x", "")` distributes over an append whose left part is
free of `x` and whose right part does not begin with `x`. -/
lemma stripHexMarkers_append (xs ys : List Char) (hx : ∀ c ∈ xs, c ≠ 'x')
    (hy : ys.head? ≠ some 'x') :
    stripHexMarkers (xs ++ ys) = xs ++ stripHexMarkers ys := by
  induction xs with
  | nil => simp
  | cons c rest ih =>
    rcases rest with _ | ⟨c2, rest2⟩
    · rcases ys with _ | ⟨y, ys'⟩
      · rfl
      · have hyx : y ≠ 'x' := by simpa using hy
        simp only [List.cons_append, List.nil_append, stripHexMarkers]
        rw [if_neg (fun hand => hyx hand.2)]
    · have hc2 : c2 ≠ 'x' := hx c2 (by simp)
      simp only [List.cons_append, stripHexMarkers]
      rw [if_neg (fun hand => hc2 hand.2)]
      have h1 := ih (fun a ha => hx a (List.mem_cons_of_mem _ ha))
      simp only [List.cons_append] at h1
      have h2 : stripHexMarkers (c2 :: rest2.append ys) =
          c2 :: (rest2 ++ stripHexMarkers ys) := h1
      rw [h2]

/-- Claim C10: the constructors' place-identifier normalization removes every
occurrence of `0x` (not only the leading one) when the identifier
starts with `0x` — a composite `0xA:0xB` identifier over the hex
alphabet (which contains no `x`) is stored as `A:B` — and stores an
identifier not starting with `0x` unchanged. -/
theorem place_id_strips_all_hex_markers :
    (∀ s : List Char, s.take 2 ≠ ['0', 'x'] → normalizePlaceId s = s) ∧
    (∀ A B : List Char, (∀ c ∈ A, c ≠ 'x') → (∀ c ∈ B, c ≠ 'x') →
      normalizePlaceId ('0' :: 'x' :: (A ++ ':' :: '0' :: 'x' :: B)) =
        A ++ ':' :: B) := by
  constructor
  · intro s hs
    unfold normalizePlaceId
    rw [if_neg hs]
  · intro A B hA hB
    unfold normalizePlaceId
    rw [if_pos (by simp)]
    have step1 : stripHexMarkers ('0' :: 'x' :: (A ++ ':' :: '0' :: 'x' :: B)) =
        stripHexMarkers (A ++ ':' :: '0' :: 'x' :: B) := by
      rw [stripHexMarkers]
      exact if_pos ⟨rfl, rfl⟩
    rw [step1, stripHexMarkers_append A _ hA (by simp)]
    have step2 : stripHexMarkers (':' :: '0' :: 'x' :: B) =
        ':' :: stripHexMarkers ('0' :: 'x' :: B) := by
      rw [stripHexMarkers]
      exact if_neg (by decide)
    have step3 : stripHexMarkers ('0' :: 'x' :: B) = stripHexMarkers B := by
      rw [stripHexMarkers]
      exact if_pos ⟨rfl, rfl⟩
    have step4 : stripHexMarkers B = B := by
      have h := stripHexMarkers_append B [] hB (by simp)
      simpa [stripHexMarkers] using h
    rw [step2, step3, step4]

/-- Witness for C10 at the repository's example place identifier. -/
theorem place_id_strips_all_hex_markers_witness :
    normalizePlaceId ("0x89c3ca9c11f90c25:0x6cc8dba851799f09".data) =
      "89c3ca9c11f90c25:6cc8dba851799f09".data ∧
    normalizePlaceId ("89c3ca9c11f90c25:0x6cc8dba851799f09".data) =
      "89c3ca9c11f90c25:0x6cc8dba851799f09".data := by
  constructor
  · have h := place_id_strips_all_hex_markers.2
      ("89c3ca9c11f90c25".data) ("6cc8dba851799f09".data) (by decide) (by decide)
    have he : "0x89c3ca9c11f90c25:0x6cc8dba851799f09".data =
        '0' :: 'x' :: ("89c3ca9c11f90c25".data ++
          ':' :: '0' :: 'x' :: "6cc8dba851799f09".data) := by decide
    rw [he, h]
    decide
  · exact place_id_strips_all_hex_markers.1
      ("89c3ca9c11f90c25:0x6cc8dba851799f09".data) (by decide)

/-- Claim C6, counterexample: for an entry missing the rating field whose
other scored fields are all present (author name and id, a text longer
than 50 characters, a date), the decoder returns `rating = none` but
assigns confidence exactly `0.8` — not strictly below `0.8`.  (The
IEEE-double sum of the source, `0.15+0.15+0.25+0.15+0.10`, also rounds
to the double nearest `0.8`, so the comparison agrees.) -/
theorem missing_rating_confidence_exactly_080 :
    (extractSingleReview fullFieldsNoRatingEnv "sec").rating = none ∧
    calculateConfidence (extractSingleReview fullFieldsNoRatingEnv "sec") = 4/5 ∧
    ¬ (calculateConfidence (extractSingleReview fullFieldsNoRatingEnv "sec") < 4/5) := by
  have hval : calculateConfidence (extractSingleReview fullFieldsNoRatingEnv "sec") = 4/5 := by
    have hlen : ("The staff were genuinely friendly and the food was consistently excellent here." : String).length = 79 := by decide
    have h1 : ("Alice" : String).length = 5 := by decide
    have h2 : ("123456789012345678901" : String).length = 21 := by decide
    unfold calculateConfidence extractSingleReview fullFieldsNoRatingEnv
    norm_num [optStrTruthy, DateInfo.truthy, hlen, h1, h2, min_def]
  exact ⟨rfl, hval, by rw [hval]; exact lt_irrefl _⟩

/-- Claim C6, amended: for any opaque entry missing the rating field, the
section decoder returns a record with `rating = null` and never raises
(every per-field extractor is total — each numeric conversion is
guarded — which the total embedding reflects), and assigns that record
a confidence of at most `0.8`, with `0.8` attained exactly when every
other scored field is present. -/
theorem missing_rating_null_confidence_le_080 (env : SectionExtractors)
    (sec : String) (h : env.starRating sec = none) :
    (extractSingleReview env sec).rating = none ∧
    calculateConfidence (extractSingleReview env sec) ≤ 4/5 := by
  constructor
  · simp [extractSingleReview, h]
  · unfold calculateConfidence extractSingleReview
    simp only [h, Option.isSome_none, Bool.false_eq_true, if_false]
    refine le_trans (min_le_left _ _) ?_
    split_ifs <;> norm_num

/-- Witness for C6 (amended) at the concrete full-fields environment. -/
theorem missing_rating_null_confidence_le_080_witness :
    (extractSingleReview fullFieldsNoRatingEnv "s").rating = none ∧
    calculateConfidence (extractSingleReview fullFieldsNoRatingEnv "s") ≤ 4/5 :=
  missing_rating_null_confidence_le_080 fullFieldsNoRatingEnv "s" rfl

/-- Claim C7: adding a valid non-empty review text to a decoded entry in
which every scored field is absent strictly increases the computed
confidence, and the confidence always lies in `[0, 1]`. -/
theorem confidence_text_monotone_and_bounded :
    (∀ t : String, t ≠ "" →
      calculateConfidence
        ({ rating := none, likesCount := none,
           userInfo := { name := none, profileImage := none, userId := none,
                         reviewCount := none, isLocalGuide := false,
                         localGuideLevel := none },
           dateInfo := { relativeDate := none, timestamp := none },
           reviewText := some t, ownerResponse := none,
           reviewImages := [] } : ExtractedReview) >
      calculateConfidence
        ({ rating := none, likesCount := none,
           userInfo := { name := none, profileImage := none, userId := none,
                         reviewCount := none, isLocalGuide := false,
                         localGuideLevel := none },
           dateInfo := { relativeDate := none, timestamp := none },
           reviewText := none, ownerResponse := none,
           reviewImages := [] } : ExtractedReview)) ∧
    (∀ r : ExtractedReview, 0 ≤ calculateConfidence r ∧ calculateConfidence r ≤ 1) := by
  constructor
  · intro t ht
    have hlen : t.length ≠ 0 := by
      intro hl
      apply ht
      have hd : t.data = [] := List.length_eq_zero.mp hl
      cases t
      simp_all [String.ext_iff]
    have htr : optStrTruthy (some t) = true := by
      simp [optStrTruthy, hlen]
    unfold calculateConfidence
    simp only [htr, optStrTruthy, DateInfo.truthy, Option.isSome_none, if_true]
    norm_num [min_def]
    split_ifs <;> first
    | (exfalso; exact hlen (by assumption))
    | norm_num
  · intro r
    unfold calculateConfidence
    constructor
    · refine le_min ?_ (by norm_num)
      split_ifs <;> norm_num
    · exact min_le_right _ _

/-- Witness for C7 at a concrete non-empty text and a concrete record. -/
theorem confidence_text_monotone_witness :
    calculateConfidence
      ({ rating := none, likesCount := none,
         userInfo := { name := none, profileImage := none, userId := none,
                       reviewCount := none, isLocalGuide := false,
                       localGuideLevel := none },
         dateInfo := { relativeDate := none, timestamp := none },
         reviewText := some "Great food", ownerResponse := none,
         reviewImages := [] } : ExtractedReview) >
    calculateConfidence
      ({ rating := none, likesCount := none,
         userInfo := { name := none, profileImage := none, userId := none,
                       reviewCount := none, isLocalGuide := false,
                       localGuideLevel := none },
         dateInfo := { relativeDate := none, timestamp := none },
         reviewText := none, ownerResponse := none,
         reviewImages := [] } : ExtractedReview) ∧
    (0 ≤ calculateConfidence
      ({ rating := none, likesCount := none,
         userInfo := { name := none, profileImage := none, userId := none,
                       reviewCount := none, isLocalGuide := false,
                       localGuideLevel := none },
         dateInfo := { relativeDate := none, timestamp := none },
         reviewText := some "Great food", ownerResponse := none,
         reviewImages := [] } : ExtractedReview) ∧
     calculateConfidence
      ({ rating := none, likesCount := none,
         userInfo := { name := none, profileImage := none, userId := none,
                       reviewCount := none, isLocalGuide := false,
                       localGuideLevel := none },
         dateInfo := { relativeDate := none, timestamp := none },
         reviewText := some "Great food", ownerResponse := none,
         reviewImages := [] } : ExtractedReview) ≤ 1) :=
  ⟨confidence_text_monotone_and_bounded.1 "Great food" (by decide),
   confidence_text_monotone_and_bounded.2 _⟩
